import Mathlib

/-!
Shallow embedding of the go-cloudinary client (service.go and the second
cloudinary source file) and proofs about its request signing, public-id
derivation, upload/delete/rename orchestration and response handling.

Machine integers are modelled as `Nat` with explicit reduction mod 2^32
where the Go code works on 32-bit words (the SHA-1 engine below).
-/

namespace Cloudinary

/-! ## Bytes, hex and UTF-8 helpers (models of Go's `[]byte`, `%x`, string bytes) -/

/-- Reduce to a 32-bit word, as Go's `uint32` arithmetic does. -/
def w32 (n : Nat) : Nat := n % 4294967296

/-- 32-bit left rotation. -/
def rotl (s x : Nat) : Nat := (w32 (x <<< s)) ||| (x >>> (32 - s))

/-- Big-endian 4-byte groups to 32-bit words (SHA-1 block parsing). -/
def toWords : List Nat → List Nat
  | a :: b :: c :: d :: rest => (a * 16777216 + b * 65536 + c * 256 + d) :: toWords rest
  | _ => []

/-- A 32-bit word to 4 big-endian bytes. -/
def wordBytes (w : Nat) : List Nat :=
  [w >>> 24 % 256, w >>> 16 % 256, w >>> 8 % 256, w % 256]

/-- The 8-byte big-endian length field of SHA-1 padding. -/
def lenBytes (n : Nat) : List Nat :=
  [n >>> 56 % 256, n >>> 48 % 256, n >>> 40 % 256, n >>> 32 % 256,
   n >>> 24 % 256, n >>> 16 % 256, n >>> 8 % 256, n % 256]

/-- SHA-1 message padding: 0x80, zeros to 56 mod 64, 64-bit bit length. -/
def sha1Pad (msg : List Nat) : List Nat :=
  msg ++ [128] ++ List.replicate ((119 - msg.length % 64) % 64) 0 ++ lenBytes (msg.length * 8)

/-- SHA-1 round function f. -/
def sha1F (i b c d : Nat) : Nat :=
  if i < 20 then (b &&& c) ||| ((b ^^^ 4294967295) &&& d)
  else if i < 40 then b ^^^ c ^^^ d
  else if i < 60 then (b &&& c) ||| (b &&& d) ||| (c &&& d)
  else b ^^^ c ^^^ d

/-- SHA-1 round constants. -/
def sha1K (i : Nat) : Nat :=
  if i < 20 then 1518500249
  else if i < 40 then 1859775393
  else if i < 60 then 2400959708
  else 3395469782

/-- Message-schedule extension: append `k` more words to the 16 block words. -/
def sha1Extend (ws : List Nat) : Nat → List Nat
  | 0 => ws
  | k + 1 =>
    let n := ws.length
    sha1Extend
      (ws ++ [rotl 1 ((ws.getD (n - 3) 0) ^^^ (ws.getD (n - 8) 0) ^^^
                      (ws.getD (n - 14) 0) ^^^ (ws.getD (n - 16) 0))]) k

/-- The 80 SHA-1 rounds over the indexed schedule. -/
def sha1Rounds : List (Nat × Nat) → Nat × Nat × Nat × Nat × Nat → Nat × Nat × Nat × Nat × Nat
  | [], st => st
  | (i, wi) :: rest, (a, b, c, d, e) =>
    sha1Rounds rest (w32 (rotl 5 a + sha1F i b c d + e + sha1K i + wi), a, rotl 30 b, c, d)

/-- Compress one 64-byte block into the running state. -/
def sha1Block (h : Nat × Nat × Nat × Nat × Nat) (block : List Nat) : Nat × Nat × Nat × Nat × Nat :=
  let ws := sha1Extend (toWords block) 64
  match sha1Rounds ws.enum h with
  | (a, b, c, d, e) =>
    match h with
    | (h0, h1, h2, h3, h4) => (w32 (h0 + a), w32 (h1 + b), w32 (h2 + c), w32 (h3 + d), w32 (h4 + e))

/-- Split into 64-byte blocks, with an explicit block-count fuel so that the
definition is structurally recursive. -/
def chunksAux : Nat → List Nat → List (List Nat)
  | 0, _ => []
  | k + 1, l => l.take 64 :: chunksAux k (l.drop 64)

/-- Split a padded message into 64-byte blocks (the padded length is a
multiple of 64). -/
def chunks64 (l : List Nat) : List (List Nat) :=
  chunksAux ((l.length + 63) / 64) l

/-- Full SHA-1 digest (20 bytes) of a byte sequence. -/
def sha1 (msg : List Nat) : List Nat :=
  match (chunks64 (sha1Pad msg)).foldl sha1Block
      (1732584193, 4023233417, 2562383102, 271733878, 3285377520) with
  | (h0, h1, h2, h3, h4) =>
    wordBytes h0 ++ wordBytes h1 ++ wordBytes h2 ++ wordBytes h3 ++ wordBytes h4

/-- Lowercase hex digit. -/
def hexC (n : Nat) : Char :=
  "0123456789abcdef".data.getD n '0'

/-- Lowercase hex encoding of bytes, as Go's `fmt.Sprintf("%x", ...)` on a byte slice. -/
def hexOfBytes (bs : List Nat) : String :=
  String.mk (bs.foldr (fun b acc => hexC (b / 16) :: hexC (b % 16) :: acc) [])

/-- UTF-8 encoding of one character (Go strings are UTF-8 byte sequences). -/
def utf8Char (c : Char) : List Nat :=
  let n := c.toNat
  if n < 128 then [n]
  else if n < 2048 then [192 ||| (n >>> 6), 128 ||| (n &&& 63)]
  else if n < 65536 then [224 ||| (n >>> 12), 128 ||| ((n >>> 6) &&& 63), 128 ||| (n &&& 63)]
  else [240 ||| (n >>> 18), 128 ||| ((n >>> 12) &&& 63), 128 ||| ((n >>> 6) &&& 63), 128 ||| (n &&& 63)]

/-- UTF-8 bytes of a string. -/
def utf8Encode (s : String) : List Nat :=
  (s.data.map utf8Char).flatten

/-- `%x` of the SHA-1 of a string, exactly the signature encoding used by the client. -/
def sha1hex (s : String) : String :=
  hexOfBytes (sha1 (utf8Encode s))

/-! ## Models of the Go standard-library string and path functions the client uses.
On the target platform `os.PathSeparator` is `'/'`. -/

/-- The whitespace characters of Go's `unicode.IsSpace` that can occur in
Latin-1 strings: space, \t, \n, \v, \f, \r, NEL, NBSP. -/
def goIsSpace (c : Char) : Bool :=
  [' ', '\t', '\n', Char.ofNat 11, Char.ofNat 12, '\r', Char.ofNat 133, Char.ofNat 160].contains c

/-- Model of Go `strings.TrimSpace`. -/
def trimSpace (s : String) : String :=
  String.mk (((s.data.dropWhile goIsSpace).reverse.dropWhile goIsSpace).reverse)

/-- Model of Go `strings.TrimPrefix(s, "/")`. -/
def trimSlashPrefixOnce (s : String) : String :=
  match s.data with
  | '/' :: rest => String.mk rest
  | _ => s

/-- Model of Go `strings.Replace(s, old, "", 1)`: delete the first occurrence
of `old`. With `old = ""` the empty replacement is inserted, leaving `s`. -/
def removeFirst : List Char → List Char → List Char
  | [], _ => []
  | c :: rest, old =>
    if old.isPrefixOf (c :: rest) then (c :: rest).drop old.length
    else c :: removeFirst rest old

/-- Last index of a character, as Go `strings.LastIndex` (specialised to one
separator character); `none` plays the role of `-1`. -/
def lastIndexOf (l : List Char) (c : Char) : Option Nat :=
  match l with
  | [] => none
  | x :: rest =>
    match lastIndexOf rest c with
    | some i => some (i + 1)
    | none => if x = c then some 0 else none

/-- Length of the extension suffix returned by Go `filepath.Ext`, computed on
the reversed character list: scan from the end, stop at `'.'` (extension
includes the dot) or at a path separator / the start (no extension). -/
def extLenRev : List Char → Nat → Nat
  | [], _ => 0
  | c :: rest, acc =>
    if c = '/' then 0
    else if c = '.' then acc + 1
    else extLenRev rest (acc + 1)

/-- Segment processing of Go `filepath.Clean`: drop empty and `"."` segments,
resolve `".."` against the stack (dropping it at the root of a rooted path,
keeping it at the front of a relative path). -/
def cleanSegs : List String → List String → Bool → List String
  | [], stack, _ => stack.reverse
  | s :: rest, stack, rooted =>
    if s = "" ∨ s = "." then cleanSegs rest stack rooted
    else if s = ".." then
      match stack with
      | t :: st => if t = ".." then cleanSegs rest (s :: t :: st) rooted else cleanSegs rest st rooted
      | [] => if rooted then cleanSegs rest [] rooted else cleanSegs rest [".."] rooted
    else cleanSegs rest (s :: stack) rooted

/-- Split on a separator character (the semantics of `strings.Split` with a
one-character separator). -/
def splitChar (c : Char) : List Char → List String
  | [] => [""]
  | x :: rest =>
    if x = c then "" :: splitChar c rest
    else
      match splitChar c rest with
      | s :: ss => String.mk (x :: s.data) :: ss
      | [] => [String.mk [x]]

/-- Model of Go `filepath.Clean` on the target platform. -/
def goClean (p : String) : String :=
  if p = "" then "."
  else
    let rooted := p.data.head? = some '/'
    let segs := cleanSegs (splitChar '/' p.data) [] rooted
    if rooted then "/" ++ String.intercalate "/" segs
    else if segs = [] then "." else String.intercalate "/" segs

/-- Model of Go `filepath.Abs` with the working directory explicit: an
absolute path is cleaned, a relative one is joined onto the working
directory (`filepath.Join` skips empty elements). `Abs` only fails when the
working directory cannot be determined, which the model excludes. -/
def goAbs (cwd p : String) : String :=
  if p.data.head? = some '/' then goClean p
  else if p = "" then goClean cwd
  else goClean (cwd ++ "/" ++ p)

/-- Model of `EnsureTrailingSlash` (`strings.HasSuffix(dirname, "/")` is a
last-character test). -/
def ensureTrailingSlash (dirname : String) : String :=
  if dirname.data.getLast? = some '/' then dirname else dirname ++ "/"

/-- The `basePath == ""` branch of `cleanAssetName`: take everything after
the second-to-last separator (`path[idx+1:]`, where a failed `LastIndex` is
`-1`). -/
def lastTwoSegs (path : List Char) : List Char :=
  match lastIndexOf path '/' with
  | none => path
  | some i =>
    match lastIndexOf (path.take i) '/' with
    | none => path
    | some j => path.drop (j + 1)

/-- Model of `cleanAssetName` with the process working directory explicit
(it enters through `filepath.Abs`). Mirrors the source: trim the three
arguments, make `basePath` and `path` absolute, then either take the last
two path segments (when `basePath` ended up empty, which requires `Abs` to
fail) or delete the first occurrence of `basePath` and a leading separator,
normalise `prependPath`, strip the extension and prepend. -/
def cleanAssetName (cwd path basePath prependPath : String) : String :=
  let path0 := trimSpace path
  let basePath0 := trimSpace basePath
  let prependPath0 := trimSpace prependPath
  let basePath1 := goAbs cwd basePath0
  let path1 := goAbs cwd path0
  let name : List Char :=
    if basePath1 = "" then lastTwoSegs path1.data
    else
      match removeFirst path1.data basePath1.data with
      | '/' :: rest => rest
      | other => other
  let prependPath1 :=
    if prependPath0 = "" then ""
    else ensureTrailingSlash (trimSlashPrefixOnce prependPath0)
  prependPath1 ++ String.mk (name.take (name.length - extLenRev name.reverse 0))

/-! ## The signature engine of `newRequest` (service.go).

A Go `map[string]string` is represented as an association list with
pairwise-distinct keys; `sort.Strings` is modelled by insertion sort under
the lexicographic order on strings (UTF-8 byte order and code-point order
agree). -/

/-- `params[key]` for a key known to be present (`""` otherwise, never hit on
the keys of the map itself). -/
def lookupD (k : String) : List (String × String) → String
  | [] => ""
  | p :: t => if p.1 = k then p.2 else lookupD k t

/-- `_, ok := params[k]` membership test. -/
def hasKey (l : List (String × String)) (k : String) : Bool :=
  l.any (fun p => p.1 = k)

/-- Go map update `params[k] = v`. -/
def mapSet (l : List (String × String)) (k v : String) : List (String × String) :=
  if hasKey l k then l.map (fun p => if p.1 = k then (k, v) else p)
  else l ++ [(k, v)]

/-- `sort.Strings`. -/
def sortKeys (ks : List String) : List String :=
  List.insertionSort (fun a b => a ≤ b) ks

/-- The string-builder loop of `newRequest`: append each element, with `"&"`
after every element except the last. -/
def sbJoin : List String → String
  | [] => ""
  | [x] => x
  | x :: y :: xs => x ++ "&" ++ sbJoin (y :: xs)

/-- The canonical parameter string of `newRequest`: sorted keys, each as
`key=value` against the map, joined by the builder loop. -/
def canonicalOf (params : List (String × String)) : String :=
  sbJoin ((sortKeys (params.map Prod.fst)).map (fun k => k ++ "=" ++ lookupD k params))

/-- The signature value `newRequest` writes: the map updated with the
timestamp, canonicalized, the secret appended with no separator, SHA-1,
lowercase hex. -/
def newRequestSignature (params : List (String × String)) (ts secret : String) : String :=
  sha1hex (canonicalOf (mapSet params "timestamp" ts) ++ secret)

/-- The hard-coded signature base string of `uploadFile`:
`timestamp=<ts><secret>`, prefixed by `public_id=<pid>&` unless a random
public id was requested. -/
def uploadSigPart (pid ts secret : String) (randomPublicID : Bool) : String :=
  let part := "timestamp=" ++ ts ++ secret
  if randomPublicID then part else "public_id=" ++ pid ++ "&" ++ part

/-- The hard-coded signature base string of `Delete`. -/
def deleteSigPart (fullID ts secret : String) : String :=
  "public_id=" ++ fullID ++ "&timestamp=" ++ ts ++ secret

/-- The hard-coded signature base string of `Rename`. Note the sent
`to_public_id` is `prepend + toPublicID` while the signed one is bare
`toPublicID`. -/
def renameSigPart (fromID toID ts secret : String) : String :=
  "from_public_id=" ++ fromID ++ "&timestamp=" ++ ts ++ "&to_public_id=" ++ toID ++ secret

/-! ## JSON values and response handling -/

/-- A decoded JSON value (`encoding/json` decodes objects to
`map[string]interface{}`, modelled as association lists). -/
inductive Json where
  | null : Json
  | bool : Bool → Json
  | num : Int → Json
  | str : String → Json
  | arr : List Json → Json
  | obj : List (String × Json) → Json

/-- Look up a key in a decoded JSON object (`m["error"]`, second result of
the comma-ok form distinguishing absence). -/
def lookupJ (k : String) : List (String × Json) → Option Json
  | [] => none
  | p :: t => if p.1 = k then some p.2 else lookupJ k t

/-- The body as seen by `json.Decoder.Decode`: either a syntax error or a
decoded value. -/
inductive Body where
  | malformed : Body
  | value : Json → Body

/-- An HTTP response (status code and body). `none` at use sites stands for a
transport error / nil response. -/
structure HttpResp where
  status : Nat
  body : Body

/-- Outcome of `handleHTTPResponse`: a decoded object, a returned error, or a
runtime panic (failed type assertion). -/
inductive HandleOut where
  | ok : List (String × Json) → HandleOut
  | err : HandleOut
  | panicked : HandleOut

/-- Model of `handleHTTPResponse`: nil response and decoder errors return
errors; the unchecked assertion `msg.(map[string]interface{})` panics on any
non-object value; on non-200 status the `error` envelope is taken apart with
two further unchecked assertions. -/
def handleHTTPResponse (resp : Option HttpResp) : HandleOut :=
  match resp with
  | none => HandleOut.err
  | some r =>
    match r.body with
    | Body.malformed => HandleOut.err
    | Body.value v =>
      match v with
      | Json.obj m =>
        if r.status ≠ 200 then
          match lookupJ "error" m with
          | some e =>
            match e with
            | Json.obj em =>
              match lookupJ "message" em with
              | some (Json.str _) => HandleOut.err
              | _ => HandleOut.panicked
            | _ => HandleOut.panicked
          | none => HandleOut.err
        else HandleOut.ok m
      | _ => HandleOut.panicked

/-- The fields of the `Response` struct that `decode` (service.go) fills. -/
structure Response where
  publicID : String
  result : String

/-- Outcome of a struct-targeted `json.Decode`: Go returns an error (never
panics) on syntax errors and type mismatches, and leaves absent fields at
their zero values. -/
inductive DecodeOut where
  | ok : Response → DecodeOut
  | err : DecodeOut

/-- Extract an optional string field for a struct decode: absent gives the
zero value, a non-string value is an unmarshal type error. -/
def strField (k : String) (m : List (String × Json)) : Option String :=
  match lookupJ k m with
  | none => some ""
  | some (Json.str s) => some s
  | some _ => none

/-- Model of `decode` (service.go): decode the body into the `Response`
struct; any decoder failure is a returned error. -/
def decode (body : Body) : DecodeOut :=
  match body with
  | Body.malformed => DecodeOut.err
  | Body.value (Json.obj m) =>
    match strField "public_id" m, strField "result" m with
    | some p, some r => DecodeOut.ok ⟨p, r⟩
    | _, _ => DecodeOut.err
  | Body.value _ => DecodeOut.err

/-! ## The service handle and the upload/delete orchestration -/

/-- Errors returned (as Go `error` values) by the modelled operations. -/
inductive Err where
  | pathError : Err
  | netError : Err
  | remoteError : Err
  | decodeError : Err
  | regexError : Err
deriving DecidableEq

/-- Observable effects, in program order: computing a signature hash and
issuing a network call. -/
inductive Event where
  | sign : Event
  | net : Event
deriving DecidableEq

/-- The `Service` struct of the client. The compiled keep-files regexp is
modelled by its matching function. -/
structure Service where
  cloudName : String
  apiKey : String
  apiSecret : String
  basePathDir : String
  prependPath : String
  verbose : Bool
  simulate : Bool
  keepFilesPattern : Option (String → Bool)

/-- `os.FileInfo` as far as the client reads it. -/
structure FileInfo where
  size : Nat
  isDir : Bool

/-- The filesystem as the two oracles the client consults: `os.Stat` and
`os.Open` (the latter yielding the file's bytes). -/
structure Fs where
  stat : String → Option FileInfo
  openFile : String → Option (List Nat)

/-- Model of `KeepFiles`: blank patterns are a silent no-op; `regexp.Compile`
(an external library, passed as an oracle) failing returns its error with the
service unchanged; otherwise the compiled matcher is stored. -/
def keepFilesM (compile : String → Option (String → Bool)) (s : Service) (pattern : String) :
    Service × Option Err :=
  if (trimSpace pattern).length = 0 then (s, none)
  else
    match compile pattern with
    | none => (s, some Err.regexError)
    | some re =>
      ({ s with keepFilesPattern := some re }, none)

/-- The upload resource types. -/
inductive ResourceType where
  | ImageType : ResourceType
  | PdfType : ResourceType
  | VideoType : ResourceType
  | RawType : ResourceType
deriving DecidableEq

/-- Result of `Delete` (and `Rename`): a nil error, a returned error, or a
runtime panic escaping from a failed type assertion. -/
inductive OpOut where
  | ok : OpOut
  | err : Err → OpOut
  | panicked : OpOut
deriving DecidableEq

/-- What one run of `uploadFile` produces: the `(string, error)` return pair,
the multipart fields written (file content rendered in hex), and the effect
trace. -/
structure UploadOut where
  result : String × Option Err
  fields : List (String × String)
  events : List Event

/-- The non-file multipart fields `uploadFile` writes, in source order:
`public_id` (absent for a random public id), `api_key`, `timestamp`,
`signature`. -/
def uploadFieldsA (s : Service) (cwd fullPath ts : String) (rnd : Bool) :
    List (String × String) :=
  let publicID := if rnd then "" else cleanAssetName cwd fullPath s.basePathDir s.prependPath
  (if rnd then [] else [("public_id", publicID)]) ++
    [("api_key", s.apiKey), ("timestamp", ts),
     ("signature", sha1hex (uploadSigPart publicID ts s.apiSecret rnd))]

/-- The full field list of a built upload request (the `file` part last). -/
def uploadBuiltFields (s : Service) (cwd fullPath ts : String) (rnd : Bool)
    (content : List Nat) : List (String × String) :=
  uploadFieldsA s cwd fullPath ts rnd ++ [("file", hexOfBytes content)]

/-- `uploadFile` from the closing of the multipart writer on: the simulate
dry-run returns the path, otherwise the request is posted and the JSON body
decoded into the upload response struct, whose `public_id` is returned. -/
def uploadFinish (s : Service) (net : Option HttpResp) (fullPath : String)
    (fields : List (String × String)) : UploadOut :=
  if s.simulate then ⟨(fullPath, none), fields, [Event.sign]⟩
  else
    match net with
    | none => ⟨(fullPath, some Err.netError), fields, [Event.sign, Event.net]⟩
    | some resp =>
      if resp.status ≠ 200 then ⟨(fullPath, some Err.remoteError), fields, [Event.sign, Event.net]⟩
      else
        match resp.body with
        | Body.malformed => ⟨(fullPath, some Err.decodeError), fields, [Event.sign, Event.net]⟩
        | Body.value (Json.obj m) =>
          match strField "public_id" m with
          | some p => ⟨(p, none), fields, [Event.sign, Event.net]⟩
          | none => ⟨(fullPath, some Err.decodeError), fields, [Event.sign, Event.net]⟩
        | Body.value _ => ⟨(fullPath, some Err.decodeError), fields, [Event.sign, Event.net]⟩

/-- `uploadFile` after the zero-byte check: write the fields, attach the file
content from the reader if given and from `os.Open` on the path otherwise
(an open failure returns that error), then finish. -/
def uploadFileBody (s : Service) (fs : Fs) (net : Option HttpResp) (cwd fullPath : String)
    (data : Option (List Nat)) (rnd : Bool) (ts : String) : UploadOut :=
  let fieldsA := uploadFieldsA s cwd fullPath ts rnd
  match data with
  | some bytes => uploadFinish s net fullPath (fieldsA ++ [("file", hexOfBytes bytes)])
  | none =>
    match fs.openFile fullPath with
    | none => ⟨(fullPath, some Err.pathError), fieldsA, [Event.sign]⟩
    | some content => uploadFinish s net fullPath (fieldsA ++ [("file", hexOfBytes content)])

/-- Model of `uploadFile`: a path that stats successfully with size zero is
returned as an immediate success before anything else happens. -/
def uploadFileM (s : Service) (fs : Fs) (net : Option HttpResp) (cwd fullPath : String)
    (data : Option (List Nat)) (rnd : Bool) (ts : String) : UploadOut :=
  match fs.stat fullPath with
  | some fi =>
    if fi.size = 0 then ⟨(fullPath, none), [], []⟩
    else uploadFileBody s fs net cwd fullPath data rnd ts
  | none => uploadFileBody s fs net cwd fullPath data rnd ts

/-- The `url.Values` literal of `Delete`, before the signature is added. -/
def deleteDataFields (s : Service) (publicID prepend ts : String) : List (String × String) :=
  [("api_key", s.apiKey), ("public_id", prepend ++ publicID), ("timestamp", ts)]

/-- The full form body of a `Delete` request, signature included. -/
def deleteSentFields (s : Service) (publicID prepend ts : String) : List (String × String) :=
  deleteDataFields s publicID prepend ts ++
    [("signature", sha1hex (deleteSigPart (prepend ++ publicID) ts s.apiSecret))]

/-- The key-value pairs `Delete`'s signature base string ranges over. -/
def deleteSignedPairs (fullID ts : String) : List (String × String) :=
  [("public_id", fullID), ("timestamp", ts)]

/-- The endpoint `Delete` posts to: raw resources go to the `raw` segment,
everything else to `image`. -/
def deleteURL (s : Service) (rtype : ResourceType) : String :=
  let rt := match rtype with
    | ResourceType.RawType => "raw"
    | _ => "image"
  "https://api.cloudinary.com/v1_1/" ++ s.cloudName ++ "/" ++ rt ++ "/destroy/"

/-- What one run of `Delete` produces: the returned error (or panic), the
form fields as far as they were filled, the destroy endpoint, and the
effect trace. -/
structure DeleteOut where
  res : OpOut
  fields : List (String × String)
  url : String
  events : List Event

/-- Model of `Delete`: the keep-pattern check and then the simulate check
are silent success no-ops taken before the signature is computed and before
any network call; otherwise the signed form is posted and the response
envelope of `handleHTTPResponse` is inspected (the `result` field print
carries one more unchecked string assertion). -/
def deleteM (s : Service) (net : Option HttpResp) (publicID prepend : String)
    (rtype : ResourceType) (ts : String) : DeleteOut :=
  let fullID := prepend ++ publicID
  let data := deleteDataFields s publicID prepend ts
  let url := deleteURL s rtype
  let keep := match s.keepFilesPattern with
    | some re => re fullID
    | none => false
  if keep then ⟨OpOut.ok, data, url, []⟩
  else if s.simulate then ⟨OpOut.ok, data, url, []⟩
  else
    let sent := deleteSentFields s publicID prepend ts
    match net with
    | none => ⟨OpOut.err Err.netError, sent, url, [Event.sign, Event.net]⟩
    | some resp =>
      match handleHTTPResponse (some resp) with
      | HandleOut.err => ⟨OpOut.err Err.remoteError, sent, url, [Event.sign, Event.net]⟩
      | HandleOut.panicked => ⟨OpOut.panicked, sent, url, [Event.sign, Event.net]⟩
      | HandleOut.ok m =>
        match lookupJ "result" m with
        | some (Json.str _) => ⟨OpOut.ok, sent, url, [Event.sign, Event.net]⟩
        | some _ => ⟨OpOut.panicked, sent, url, [Event.sign, Event.net]⟩
        | none => ⟨OpOut.ok, sent, url, [Event.sign, Event.net]⟩

/-- The form body of a `Rename` request, in source order. Both ids have a
leading `"/"` trimmed; the sent `to_public_id` carries the prepend prefix
while the signature base string uses the bare `toPublicID`. -/
def renameSentFields (s : Service) (publicID toPublicID prepend ts : String) :
    List (String × String) :=
  let pid := trimSlashPrefixOnce publicID
  let toPid := trimSlashPrefixOnce toPublicID
  [("api_key", s.apiKey), ("from_public_id", prepend ++ pid), ("timestamp", ts),
   ("to_public_id", prepend ++ toPid)] ++
    [("signature", sha1hex (renameSigPart (prepend ++ pid) toPid ts s.apiSecret))]

/-- The key-value pairs `Rename`'s signature base string ranges over. -/
def renameSignedPairs (fromID toID ts : String) : List (String × String) :=
  [("from_public_id", fromID), ("timestamp", ts), ("to_public_id", toID)]

/-- The multipart fields `newRequest` (service.go) writes: `api_key`,
`timestamp`, and the signature over the caller's params plus the
timestamp. -/
def newRequestFields (apiKey secret : String) (params : List (String × String)) (ts : String) :
    List (String × String) :=
  [("api_key", apiKey), ("timestamp", ts), ("signature", newRequestSignature params ts secret)]

/-- The form body of an `UploadDestroy` request (service.go): the
`newRequest` fields for `params = {public_id}` followed by the `public_id`
field. -/
def uploadDestroyFields (apiKey secret pid ts : String) : List (String × String) :=
  newRequestFields apiKey secret [("public_id", pid)] ts ++ [("public_id", pid)]

/-- The form body of an `UploadByURL` request (service.go): the `newRequest`
fields for empty params followed by the remote URL as the `file` field. -/
def uploadByURLFields (apiKey secret addr ts : String) : List (String × String) :=
  newRequestFields apiKey secret [] ts ++ [("file", addr)]

/-- The key-value pairs `uploadFile`'s signature base string ranges over:
`timestamp` alone for a random public id, `public_id` and `timestamp`
otherwise. -/
def uploadSignedPairs (pid ts : String) (rnd : Bool) : List (String × String) :=
  if rnd then [("timestamp", ts)] else [("public_id", pid), ("timestamp", ts)]

/-- Tail rendering of the `&`-separated join, used to relate the builder
loop to `String.intercalate`. -/
def sbTail : List String → String
  | [] => ""
  | y :: ys => "&" ++ y ++ sbTail ys

/-! ## Sanity check of the SHA-1 engine against the standard test vector -/

set_option maxRecDepth 10000 in
theorem sha1_test_vector :
    sha1hex "abc" = "a9993e364706816aba3e25717850c26c9cd0d89d" := by
  rfl

/-! ## Supporting lemmas: the canonical string is iteration-order independent -/

theorem any_eq_of_perm {l1 l2 : List (String × String)} (h : l1.Perm l2)
    (f : String × String → Bool) : l1.any f = l2.any f := by
  cases hb : l2.any f with
  | false =>
    rw [List.any_eq_false] at hb ⊢
    intro x hx
    exact hb x (h.mem_iff.mp hx)
  | true =>
    rw [List.any_eq_true] at hb ⊢
    obtain ⟨x, hx, hf⟩ := hb
    exact ⟨x, h.mem_iff.mpr hx, hf⟩

theorem mapSet_perm {l1 l2 : List (String × String)} (h : l1.Perm l2) (k v : String) :
    (mapSet l1 k v).Perm (mapSet l2 k v) := by
  unfold mapSet hasKey
  rw [any_eq_of_perm h]
  cases l2.any (fun p => decide (p.1 = k)) with
  | true => simpa using h.map _
  | false => simpa using h.append_right [(k, v)]

theorem keys_mapSet_replace {l : List (String × String)} {k : String} (v : String)
    (hk : hasKey l k = true) : (mapSet l k v).map Prod.fst = l.map Prod.fst := by
  unfold mapSet
  rw [hk]
  simp only [if_true, List.map_map]
  apply List.map_congr_left
  intro p _
  by_cases hp : p.1 = k
  · simp [hp]
  · simp [hp]

theorem keys_mapSet_append {l : List (String × String)} {k : String} (v : String)
    (hk : hasKey l k = false) : (mapSet l k v).map Prod.fst = l.map Prod.fst ++ [k] := by
  unfold mapSet
  rw [hk]
  simp

theorem nodupKeys_mapSet {l : List (String × String)} (nd : (l.map Prod.fst).Nodup)
    (k v : String) : ((mapSet l k v).map Prod.fst).Nodup := by
  cases hk : hasKey l k with
  | true => rw [keys_mapSet_replace v hk]; exact nd
  | false =>
    rw [keys_mapSet_append v hk]
    rw [List.nodup_append]
    refine ⟨nd, List.nodup_singleton k, ?_⟩
    intro x hx hxk
    rw [List.mem_singleton] at hxk
    subst hxk
    unfold hasKey at hk
    rw [List.any_eq_false] at hk
    obtain ⟨p, hp, hpk⟩ := List.mem_map.mp hx
    exact hk p hp (by simp [hpk])

theorem lookupD_eq_of_perm {l1 l2 : List (String × String)} (h : l1.Perm l2) :
    (l1.map Prod.fst).Nodup → ∀ k, lookupD k l1 = lookupD k l2 := by
  induction h with
  | nil => intro _ k; rfl
  | cons x h ih =>
    intro nd k
    simp only [List.map_cons, List.nodup_cons] at nd
    simp only [lookupD]
    by_cases hx : x.1 = k
    · simp [hx]
    · simp [hx, ih nd.2 k]
  | swap x y l =>
    intro nd k
    simp only [List.map_cons, List.nodup_cons, List.mem_cons] at nd
    have hxy : ¬y.1 = x.1 := fun e => nd.1 (Or.inl e)
    simp only [lookupD]
    by_cases h1 : y.1 = k <;> by_cases h2 : x.1 = k
    · exact absurd (h1.trans h2.symm) hxy
    · simp [h1, h2]
    · simp [h1, h2]
    · simp [h1, h2]
  | trans h12 h23 ih1 ih2 =>
    intro nd k
    have nd2 := ((h12.map Prod.fst).nodup_iff).mp nd
    rw [ih1 nd k, ih2 nd2 k]

theorem sortKeys_eq_of_perm {ks1 ks2 : List String} (h : ks1.Perm ks2) :
    sortKeys ks1 = sortKeys ks2 :=
  List.eq_of_perm_of_sorted
    ((List.perm_insertionSort _ ks1).trans (h.trans (List.perm_insertionSort _ ks2).symm))
    (List.sorted_insertionSort _ ks1) (List.sorted_insertionSort _ ks2)

theorem canonicalOf_eq_of_perm {l1 l2 : List (String × String)} (h : l1.Perm l2)
    (nd : (l1.map Prod.fst).Nodup) : canonicalOf l1 = canonicalOf l2 := by
  unfold canonicalOf
  rw [sortKeys_eq_of_perm (h.map Prod.fst)]
  congr 1
  apply List.map_congr_left
  intro k _
  rw [lookupD_eq_of_perm h nd k]

theorem newRequestSignature_eq_of_perm {l1 l2 : List (String × String)} (h : l1.Perm l2)
    (nd : (l1.map Prod.fst).Nodup) (ts secret : String) :
    newRequestSignature l1 ts secret = newRequestSignature l2 ts secret := by
  unfold newRequestSignature
  rw [canonicalOf_eq_of_perm (mapSet_perm h "timestamp" ts) (nodupKeys_mapSet nd "timestamp" ts)]

theorem intercalate_go_eq (l : List String) :
    ∀ acc : String, String.intercalate.go acc "&" l = acc ++ sbTail l := by
  induction l with
  | nil => intro acc; simp [String.intercalate.go, sbTail, String.append_empty]
  | cons y ys ih =>
    intro acc
    show String.intercalate.go (acc ++ "&" ++ y) "&" ys = _
    rw [ih]
    simp [sbTail, String.append_assoc]

theorem sbJoin_cons (x : String) (xs : List String) : sbJoin (x :: xs) = x ++ sbTail xs := by
  induction xs generalizing x with
  | nil => simp [sbJoin, sbTail, String.append_empty]
  | cons y ys ih => simp [sbJoin, sbTail, ih, String.append_assoc]

theorem sbJoin_eq_intercalate (l : List String) : sbJoin l = String.intercalate "&" l := by
  cases l with
  | nil => rfl
  | cons x xs =>
    show sbJoin (x :: xs) = String.intercalate.go x "&" xs
    rw [intercalate_go_eq, sbJoin_cons]

theorem uploadSigPart_eq_canonical (pid ts secret : String) :
    uploadSigPart pid ts secret false = canonicalOf [("public_id", pid), ("timestamp", ts)] ++ secret := by
  have hle : ("public_id" : String) ≤ "timestamp" := by
    rw [String.le_iff_toList_le]; decide
  simp only [uploadSigPart, canonicalOf, sortKeys, List.insertionSort, List.orderedInsert,
    if_pos hle, List.map_cons, List.map_nil, lookupD, if_pos rfl, sbJoin,
    String.append_assoc, Bool.false_eq_true, if_false]
  rw [← String.append_assoc "public_id" "=", ← String.append_assoc "timestamp" "="]
  by_cases hpt : "timestamp" = "public_id"
  · exact absurd hpt (by decide)
  · simp only [hpt, if_false]
    rfl

theorem deleteSigPart_eq_canonical (fullID ts secret : String) :
    deleteSigPart fullID ts secret = canonicalOf (deleteSignedPairs fullID ts) ++ secret := by
  have hle : ("public_id" : String) ≤ "timestamp" := by
    rw [String.le_iff_toList_le]; decide
  simp only [deleteSigPart, deleteSignedPairs, canonicalOf, sortKeys, List.insertionSort,
    List.orderedInsert, if_pos hle, List.map_cons, List.map_nil, lookupD, if_pos rfl, sbJoin,
    String.append_assoc]
  rw [← String.append_assoc "public_id" "=", ← String.append_assoc "timestamp" "="]
  by_cases hpt : "timestamp" = "public_id"
  · exact absurd hpt (by decide)
  · simp only [hpt, if_false]
    rfl

theorem renameSigPart_eq_canonical (fromID toID ts secret : String) :
    renameSigPart fromID toID ts secret = canonicalOf (renameSignedPairs fromID toID ts) ++ secret := by
  have h1 : ("from_public_id" : String) ≤ "timestamp" := by
    rw [String.le_iff_toList_le]; decide
  have h2 : ("timestamp" : String) ≤ "to_public_id" := by
    rw [String.le_iff_toList_le]; decide
  have h3 : ("from_public_id" : String) ≤ "to_public_id" := by
    rw [String.le_iff_toList_le]; decide
  have n1 : ("timestamp" : String) ≠ "from_public_id" := by decide
  have n2 : ("to_public_id" : String) ≠ "from_public_id" := by decide
  have n3 : ("to_public_id" : String) ≠ "timestamp" := by decide
  simp only [renameSigPart, renameSignedPairs, canonicalOf, sortKeys, List.insertionSort,
    List.orderedInsert, if_pos h1, if_pos h2, if_pos h3, List.map_cons, List.map_nil, lookupD,
    if_pos rfl, n1, n2, n3, if_false, sbJoin, String.append_assoc]
  rw [← String.append_assoc "from_public_id" "=", ← String.append_assoc "timestamp" "=",
    ← String.append_assoc "to_public_id" "="]
  rfl

theorem uploadSigPart_eq_canonical' (pid ts secret : String) (rnd : Bool) :
    uploadSigPart pid ts secret rnd = canonicalOf (uploadSignedPairs pid ts rnd) ++ secret := by
  cases rnd with
  | false =>
    simp only [uploadSignedPairs, Bool.false_eq_true, if_false]
    exact uploadSigPart_eq_canonical pid ts secret
  | true =>
    simp only [uploadSigPart, uploadSignedPairs, if_true, canonicalOf, sortKeys,
      List.insertionSort, List.orderedInsert, List.map_cons, List.map_nil, lookupD,
      if_pos rfl, sbJoin, String.append_assoc]
    rw [← String.append_assoc "timestamp" "="]
    rfl

/-! ## Claim C1 -/

/-- C1: the signature `newRequest` produces is the lowercase hex SHA-1 digest
of the string obtained by sorting the parameter keys lexicographically,
joining them as `key=value` pairs with `&`, and appending the secret with no
separator; it is deterministic and independent of the mapping's iteration
order (permuting the association list with distinct keys leaves it
unchanged). `uploadFile`'s hard-coded base string is the same canonical form
of its own parameter set. -/
theorem signature_sorted_join_deterministic
    (l1 l2 : List (String × String)) (ts secret pid : String)
    (nd : (l1.map Prod.fst).Nodup) (h : l1.Perm l2) :
    newRequestSignature l1 ts secret = newRequestSignature l2 ts secret
    ∧ newRequestSignature l1 ts secret =
        sha1hex (String.intercalate "&"
            ((sortKeys ((mapSet l1 "timestamp" ts).map Prod.fst)).map
              (fun k => k ++ "=" ++ lookupD k (mapSet l1 "timestamp" ts))) ++ secret)
    ∧ uploadSigPart pid ts secret false
        = canonicalOf [("public_id", pid), ("timestamp", ts)] ++ secret := by
  refine ⟨newRequestSignature_eq_of_perm h nd ts secret, ?_,
    uploadSigPart_eq_canonical pid ts secret⟩
  unfold newRequestSignature canonicalOf
  rw [sbJoin_eq_intercalate]

theorem signature_sorted_join_deterministic_witness :
    ([(("b" : String), ("2" : String)), ("a", "1")].map Prod.fst).Nodup
    ∧ [(("b" : String), ("2" : String)), ("a", "1")].Perm [("a", "1"), ("b", "2")]
    ∧ (newRequestSignature [("b", "2"), ("a", "1")] "7" "s"
          = newRequestSignature [("a", "1"), ("b", "2")] "7" "s"
        ∧ newRequestSignature [("b", "2"), ("a", "1")] "7" "s" =
            sha1hex (String.intercalate "&"
                ((sortKeys ((mapSet [("b", "2"), ("a", "1")] "timestamp" "7").map Prod.fst)).map
                  (fun k => k ++ "=" ++ lookupD k (mapSet [("b", "2"), ("a", "1")] "timestamp" "7"))) ++ "s")
        ∧ uploadSigPart "p" "7" "s" false
            = canonicalOf [("public_id", "p"), ("timestamp", "7")] ++ "s") :=
  ⟨by decide, List.Perm.swap ("a", "1") ("b", "2") [],
    signature_sorted_join_deterministic [("b", "2"), ("a", "1")] [("a", "1"), ("b", "2")]
      "7" "s" "p" (by decide) (List.Perm.swap ("a", "1") ("b", "2") [])⟩

/-! ## Claim C2 -/

/-- C2 counterexample: in a destroy request the `api_key` field is among the
sent parameters but absent from the parameter set the signature base string
ranges over, contradicting the claim that `api_key` is always in the signed
set. -/
theorem apiKey_sent_but_not_signed :
    deleteSigPart ("" ++ "x") "0" "sec" = canonicalOf (deleteSignedPairs ("" ++ "x") "0") ++ "sec"
    ∧ "api_key" ∈ (deleteSentFields ⟨"c", "k", "sec", "", "", false, false, none⟩ "x" "" "0").map Prod.fst
    ∧ "api_key" ∉ (deleteSignedPairs ("" ++ "x") "0").map Prod.fst :=
  ⟨deleteSigPart_eq_canonical _ _ _, by decide, by decide⟩

/-- C2 amended: for every request built by upload, destroy (both
implementations), rename and URL upload, the signed parameter set is exactly
the sent parameter set minus `api_key`, `signature` and `file` — in
particular it excludes `file` and `signature` but also excludes `api_key`,
which is sent unsigned (`resource_type` is never a form field). -/
theorem signed_set_excludes_apiKey_file_signature
    (s : Service) (cwd fullPath ts ts2 ts3 ts4 pid prepend toPid addr apiKey secret : String)
    (rnd : Bool) (content : List Nat) :
    ((uploadBuiltFields s cwd fullPath ts rnd content).map Prod.fst).filter
        (fun k => decide (k ∉ ["api_key", "signature", "file"]))
      = (uploadSignedPairs (if rnd then ""
            else cleanAssetName cwd fullPath s.basePathDir s.prependPath) ts rnd).map Prod.fst
    ∧ "api_key" ∈ (uploadBuiltFields s cwd fullPath ts rnd content).map Prod.fst
    ∧ uploadSigPart (if rnd then "" else cleanAssetName cwd fullPath s.basePathDir s.prependPath)
          ts s.apiSecret rnd
        = canonicalOf (uploadSignedPairs (if rnd then ""
            else cleanAssetName cwd fullPath s.basePathDir s.prependPath) ts rnd) ++ s.apiSecret
    ∧ ((deleteSentFields s pid prepend ts2).map Prod.fst).filter
        (fun k => decide (k ∉ ["api_key", "signature", "file"]))
      = (deleteSignedPairs (prepend ++ pid) ts2).map Prod.fst
    ∧ "api_key" ∈ (deleteSentFields s pid prepend ts2).map Prod.fst
    ∧ deleteSigPart (prepend ++ pid) ts2 s.apiSecret
        = canonicalOf (deleteSignedPairs (prepend ++ pid) ts2) ++ s.apiSecret
    ∧ ((renameSentFields s pid toPid prepend ts3).map Prod.fst).filter
        (fun k => decide (k ∉ ["api_key", "signature", "file"]))
      = (renameSignedPairs (prepend ++ trimSlashPrefixOnce pid)
          (trimSlashPrefixOnce toPid) ts3).map Prod.fst
    ∧ "api_key" ∈ (renameSentFields s pid toPid prepend ts3).map Prod.fst
    ∧ renameSigPart (prepend ++ trimSlashPrefixOnce pid) (trimSlashPrefixOnce toPid) ts3 s.apiSecret
        = canonicalOf (renameSignedPairs (prepend ++ trimSlashPrefixOnce pid)
            (trimSlashPrefixOnce toPid) ts3) ++ s.apiSecret
    ∧ (((uploadDestroyFields apiKey secret pid ts4).map Prod.fst).filter
        (fun k => decide (k ∉ ["api_key", "signature", "file"]))).Perm
          ((mapSet [("public_id", pid)] "timestamp" ts4).map Prod.fst)
    ∧ "api_key" ∈ (uploadDestroyFields apiKey secret pid ts4).map Prod.fst
    ∧ ((uploadByURLFields apiKey secret addr ts4).map Prod.fst).filter
        (fun k => decide (k ∉ ["api_key", "signature", "file"]))
      = (mapSet [] "timestamp" ts4).map Prod.fst
    ∧ "api_key" ∈ (uploadByURLFields apiKey secret addr ts4).map Prod.fst := by
  cases rnd <;>
    refine ⟨rfl, ?_, uploadSigPart_eq_canonical' _ _ _ _, rfl, ?_,
      deleteSigPart_eq_canonical _ _ _, rfl, ?_, renameSigPart_eq_canonical _ _ _ _,
      List.Perm.swap "public_id" "timestamp" [], ?_, rfl, ?_⟩ <;>
    simp [uploadBuiltFields, uploadFieldsA, deleteSentFields, deleteDataFields,
      renameSentFields, uploadDestroyFields, uploadByURLFields, newRequestFields]

/-! ## Claim C3 -/

/-- C3: evaluation of `cleanAssetName` at the two claimed inputs, with the
working directory `"/root"`. The empty-base-path call yields
`"tmp/images/logo"`, not the claimed `"images/logo"`: `filepath.Abs("")`
returns the working directory, so the `basePath == ""` branch that computes
the last two path segments (shown in the last conjunct to yield exactly the
claimed identity) is unreachable. The second claimed input evaluates as
claimed. -/
theorem cleanAssetName_divergence :
    cleanAssetName "/root" "/tmp/images/logo.png" "" "" = "tmp/images/logo"
    ∧ cleanAssetName "/root" "/tmp/images/logo.png" "" "" ≠ "images/logo"
    ∧ cleanAssetName "/root" "/tmp/css/default.css" "/tmp/" "new/" = "new/css/default"
    ∧ (let name := lastTwoSegs (goAbs "/root" "/tmp/images/logo.png").data
       String.mk (name.take (name.length - extLenRev name.reverse 0)) = "images/logo") := by
  exact ⟨by decide, by decide, by decide, by decide⟩

/-! ## Claim C4 -/

/-- C4 counterexample: a response whose body is the valid JSON value `42`
makes `handleHTTPResponse` panic on the unchecked assertion
`msg.(map[string]interface{})` instead of returning a decode error. -/
theorem handleHTTPResponse_panics_on_nonobject :
    handleHTTPResponse (some ⟨200, Body.value (Json.num 42)⟩) = HandleOut.panicked := rfl

/-- C4 amended: a nil response or a JSON syntax error yields a returned
error, but a valid-JSON non-object body makes `handleHTTPResponse` panic,
as does (under a non-200 status) an error envelope whose `message` field is
missing; the struct-targeted `decode` of service.go returns errors and
never panics, also on non-object bodies. -/
theorem handleHTTPResponse_error_vs_panic (st : Nat) (v : Json) (m em : List (String × Json))
    (hv : ∀ l, v ≠ Json.obj l) (hst : st ≠ 200)
    (he : lookupJ "error" m = some (Json.obj em)) (hm : lookupJ "message" em = none) :
    handleHTTPResponse none = HandleOut.err
    ∧ handleHTTPResponse (some ⟨st, Body.malformed⟩) = HandleOut.err
    ∧ handleHTTPResponse (some ⟨st, Body.value v⟩) = HandleOut.panicked
    ∧ handleHTTPResponse (some ⟨st, Body.value (Json.obj m)⟩) = HandleOut.panicked
    ∧ decode Body.malformed = DecodeOut.err
    ∧ decode (Body.value (Json.num 42)) = DecodeOut.err := by
  refine ⟨rfl, rfl, ?_, ?_, rfl, rfl⟩
  · cases v with
    | obj l => exact absurd rfl (hv l)
    | null => rfl
    | bool b => rfl
    | num n => rfl
    | str s => rfl
    | arr xs => rfl
  · show (if st ≠ 200 then
          match lookupJ "error" m with
          | some e =>
            match e with
            | Json.obj em' =>
              match lookupJ "message" em' with
              | some (Json.str _) => HandleOut.err
              | _ => HandleOut.panicked
            | _ => HandleOut.panicked
          | none => HandleOut.err
        else HandleOut.ok m) = HandleOut.panicked
    rw [if_pos hst, he]
    show (match lookupJ "message" em with
          | some (Json.str _) => HandleOut.err
          | _ => HandleOut.panicked) = HandleOut.panicked
    rw [hm]

theorem handleHTTPResponse_error_vs_panic_witness :
    (∀ l, Json.num 1 ≠ Json.obj l)
    ∧ (400 ≠ 200)
    ∧ lookupJ "error" [("error", Json.obj [])] = some (Json.obj [])
    ∧ lookupJ "message" ([] : List (String × Json)) = none
    ∧ (handleHTTPResponse none = HandleOut.err
        ∧ handleHTTPResponse (some ⟨400, Body.malformed⟩) = HandleOut.err
        ∧ handleHTTPResponse (some ⟨400, Body.value (Json.num 1)⟩) = HandleOut.panicked
        ∧ handleHTTPResponse (some ⟨400, Body.value (Json.obj [("error", Json.obj [])])⟩)
            = HandleOut.panicked
        ∧ decode Body.malformed = DecodeOut.err
        ∧ decode (Body.value (Json.num 42)) = DecodeOut.err) := by
  refine ⟨?_, by decide, rfl, rfl, ?_⟩
  · intro l h
    cases h
  · refine handleHTTPResponse_error_vs_panic 400 (Json.num 1) [("error", Json.obj [])] []
      ?_ (by decide) rfl rfl
    intro l h
    cases h

/-! ## Claim C5 -/

/-- C5: evaluation of `Rename` at public id `"a"`, target `"b"`, prepend
`"pre/"`, timestamp `"0"`, secret `"sec"`: the form body sends
`to_public_id = "pre/b"` but the signature base string contains
`to_public_id=b` (no prepend), so the signed string does not cover the sent
`to_public_id` value, contradicting the claim (the canonical string over
the actually-sent values is shown to differ). -/
theorem rename_signs_unprefixed_target :
    lookupD "to_public_id"
        (renameSentFields ⟨"c", "k", "sec", "", "", false, false, none⟩ "a" "b" "pre/" "0")
      = "pre/b"
    ∧ renameSigPart ("pre/" ++ "a") "b" "0" "sec"
        = "from_public_id=pre/a&timestamp=0&to_public_id=bsec"
    ∧ canonicalOf (renameSignedPairs "pre/a" "pre/b" "0") ++ "sec"
        = "from_public_id=pre/a&timestamp=0&to_public_id=pre/bsec"
    ∧ ("from_public_id=pre/a&timestamp=0&to_public_id=bsec" : String)
        ≠ "from_public_id=pre/a&timestamp=0&to_public_id=pre/bsec" := by
  refine ⟨by decide, by decide, ?_, by decide⟩
  rw [← renameSigPart_eq_canonical]
  decide

/-! ## Claim C6 -/

/-- C6: when a keep-pattern is configured and matches the prepended public
id, `Delete` returns success with an empty effect trace — in particular
zero network calls and no signature computation, the check coming before
both. -/
theorem delete_keep_pattern_short_circuits (s : Service) (net : Option HttpResp)
    (publicID prepend ts : String) (rtype : ResourceType) (re : String → Bool)
    (hpat : s.keepFilesPattern = some re) (hmatch : re (prepend ++ publicID) = true) :
    (deleteM s net publicID prepend rtype ts).res = OpOut.ok
    ∧ (deleteM s net publicID prepend rtype ts).events = [] := by
  refine ⟨?_, ?_⟩ <;> simp [deleteM, hpat, hmatch]

theorem delete_keep_pattern_short_circuits_witness :
    ((⟨"c", "k", "sec", "", "", false, false, some (fun _ => true)⟩ : Service).keepFilesPattern
        = some (fun _ => true))
    ∧ ((fun _ : String => true) ("pre/" ++ "a") = true)
    ∧ ((deleteM ⟨"c", "k", "sec", "", "", false, false, some (fun _ => true)⟩ none "a" "pre/"
          ResourceType.ImageType "0").res = OpOut.ok
      ∧ (deleteM ⟨"c", "k", "sec", "", "", false, false, some (fun _ => true)⟩ none "a" "pre/"
          ResourceType.ImageType "0").events = []) :=
  ⟨rfl, rfl, delete_keep_pattern_short_circuits _ none "a" "pre/" "0" ResourceType.ImageType
    (fun _ => true) rfl rfl⟩

/-! ## Claim C7 -/

/-- C7: a path that stats successfully as a zero-byte file makes
`uploadFile` return the original path with a nil error before writing any
field, computing any signature or issuing any network call. -/
theorem upload_skips_zero_byte_files (s : Service) (fs : Fs) (net : Option HttpResp)
    (cwd fullPath ts : String) (data : Option (List Nat)) (rnd : Bool) (fi : FileInfo)
    (hstat : fs.stat fullPath = some fi) (hsize : fi.size = 0) :
    uploadFileM s fs net cwd fullPath data rnd ts = ⟨(fullPath, none), [], []⟩ := by
  unfold uploadFileM
  rw [hstat]
  simp [hsize]

theorem upload_skips_zero_byte_files_witness :
    ((⟨fun _ => some ⟨0, false⟩, fun _ => none⟩ : Fs).stat "/a/b.png" = some ⟨0, false⟩)
    ∧ ((⟨0, false⟩ : FileInfo).size = 0)
    ∧ uploadFileM ⟨"c", "k", "sec", "", "", false, false, none⟩
        ⟨fun _ => some ⟨0, false⟩, fun _ => none⟩ none "/root" "/a/b.png" none false "0"
      = ⟨("/a/b.png", none), [], []⟩ :=
  ⟨rfl, rfl, upload_skips_zero_byte_files _ _ none "/root" "/a/b.png" "0" none false ⟨0, false⟩
    rfl rfl⟩

/-! ## Claim C8 -/

/-- C8 counterexample: in simulate mode `uploadFile` succeeds without a
network call but returns the original path, not the would-be public
identifier derived by `cleanAssetName`. -/
theorem simulate_upload_returns_path_not_public_id :
    (uploadFileM ⟨"c", "k", "sec", "", "", false, true, none⟩ ⟨fun _ => none, fun _ => none⟩
        none "/root" "/tmp/images/logo.png" (some [1]) false "0").result
      = ("/tmp/images/logo.png", none)
    ∧ Event.net ∉ (uploadFileM ⟨"c", "k", "sec", "", "", false, true, none⟩
        ⟨fun _ => none, fun _ => none⟩
        none "/root" "/tmp/images/logo.png" (some [1]) false "0").events
    ∧ cleanAssetName "/root" "/tmp/images/logo.png" "" "" = "tmp/images/logo"
    ∧ ("/tmp/images/logo.png" : String) ≠ "tmp/images/logo" :=
  ⟨by decide, by decide, by decide, by decide⟩

/-- C8 amended: in simulate mode `uploadFile` with a data stream performs no
network call and succeeds — returning the original path rather than the
derived public identifier — and `Delete` performs no network call and
succeeds with an empty effect trace, so the upload-then-delete round trip on
the returned identifier never errors and never contacts the network. -/
theorem simulate_mode_no_network (s : Service) (fs : Fs) (net net2 : Option HttpResp)
    (cwd fullPath ts ts2 prepend : String) (bytes : List Nat) (rnd : Bool)
    (rtype : ResourceType) (hsim : s.simulate = true) :
    (uploadFileM s fs net cwd fullPath (some bytes) rnd ts).result.1 = fullPath
    ∧ (uploadFileM s fs net cwd fullPath (some bytes) rnd ts).result.2 = none
    ∧ Event.net ∉ (uploadFileM s fs net cwd fullPath (some bytes) rnd ts).events
    ∧ (deleteM s net2 (uploadFileM s fs net cwd fullPath (some bytes) rnd ts).result.1
        prepend rtype ts2).res = OpOut.ok
    ∧ (deleteM s net2 (uploadFileM s fs net cwd fullPath (some bytes) rnd ts).result.1
        prepend rtype ts2).events = [] := by
  have hdel : ∀ pid : String, (deleteM s net2 pid prepend rtype ts2).res = OpOut.ok
      ∧ (deleteM s net2 pid prepend rtype ts2).events = [] := by
    intro pid
    cases hk : s.keepFilesPattern with
    | none => refine ⟨?_, ?_⟩ <;> simp [deleteM, hk, hsim]
    | some re =>
      cases hre : re (prepend ++ pid) with
      | false => refine ⟨?_, ?_⟩ <;> simp [deleteM, hk, hre, hsim]
      | true => refine ⟨?_, ?_⟩ <;> simp [deleteM, hk, hre]
  have hup : (uploadFileM s fs net cwd fullPath (some bytes) rnd ts).result.1 = fullPath
      ∧ (uploadFileM s fs net cwd fullPath (some bytes) rnd ts).result.2 = none
      ∧ Event.net ∉ (uploadFileM s fs net cwd fullPath (some bytes) rnd ts).events := by
    cases hs : fs.stat fullPath with
    | none =>
      refine ⟨?_, ?_, ?_⟩ <;>
        simp [uploadFileM, uploadFileBody, uploadFinish, hs, hsim]
    | some fi =>
      by_cases hz : fi.size = 0
      · refine ⟨?_, ?_, ?_⟩ <;> simp [uploadFileM, hs, hz]
      · refine ⟨?_, ?_, ?_⟩ <;>
          simp [uploadFileM, uploadFileBody, uploadFinish, hs, hz, hsim]
  refine ⟨hup.1, hup.2.1, hup.2.2, ?_, ?_⟩
  · rw [hup.1]
    exact (hdel fullPath).1
  · rw [hup.1]
    exact (hdel fullPath).2

theorem simulate_mode_no_network_witness :
    ((⟨"c", "k", "sec", "", "", false, true, none⟩ : Service).simulate = true)
    ∧ ((uploadFileM ⟨"c", "k", "sec", "", "", false, true, none⟩ ⟨fun _ => none, fun _ => none⟩
          none "/root" "/p" (some [1]) false "0").result.1 = "/p"
      ∧ (uploadFileM ⟨"c", "k", "sec", "", "", false, true, none⟩ ⟨fun _ => none, fun _ => none⟩
          none "/root" "/p" (some [1]) false "0").result.2 = none
      ∧ Event.net ∉ (uploadFileM ⟨"c", "k", "sec", "", "", false, true, none⟩
          ⟨fun _ => none, fun _ => none⟩ none "/root" "/p" (some [1]) false "0").events
      ∧ (deleteM ⟨"c", "k", "sec", "", "", false, true, none⟩ none
          (uploadFileM ⟨"c", "k", "sec", "", "", false, true, none⟩ ⟨fun _ => none, fun _ => none⟩
            none "/root" "/p" (some [1]) false "0").result.1 "pre/" ResourceType.ImageType "1").res
          = OpOut.ok
      ∧ (deleteM ⟨"c", "k", "sec", "", "", false, true, none⟩ none
          (uploadFileM ⟨"c", "k", "sec", "", "", false, true, none⟩ ⟨fun _ => none, fun _ => none⟩
            none "/root" "/p" (some [1]) false "0").result.1 "pre/" ResourceType.ImageType "1").events
          = []) :=
  ⟨rfl, simulate_mode_no_network _ _ none none "/root" "/p" "0" "1" "pre/" [1] false
    ResourceType.ImageType rfl⟩

/-! ## Claim C9 -/

/-- C9 counterexample: with a non-nil data stream and everything else equal,
changing only the filesystem's stat answer at the path (zero-byte file
versus five-byte file) changes both the returned value and whether the
network is contacted — the zero-byte check consults the path even though the
content comes from the stream. -/
theorem upload_outcome_depends_on_path_fs :
    Event.net ∉ (uploadFileM ⟨"c", "k", "sec", "", "", false, false, none⟩
        ⟨fun _ => some ⟨0, false⟩, fun _ => none⟩
        (some ⟨200, Body.value (Json.obj [("public_id", Json.str "x")])⟩)
        "/root" "/a/b.png" (some [1, 2]) false "0").events
    ∧ (uploadFileM ⟨"c", "k", "sec", "", "", false, false, none⟩
        ⟨fun _ => some ⟨0, false⟩, fun _ => none⟩
        (some ⟨200, Body.value (Json.obj [("public_id", Json.str "x")])⟩)
        "/root" "/a/b.png" (some [1, 2]) false "0").result = ("/a/b.png", none)
    ∧ Event.net ∈ (uploadFileM ⟨"c", "k", "sec", "", "", false, false, none⟩
        ⟨fun _ => some ⟨5, false⟩, fun _ => none⟩
        (some ⟨200, Body.value (Json.obj [("public_id", Json.str "x")])⟩)
        "/root" "/a/b.png" (some [1, 2]) false "0").events
    ∧ (uploadFileM ⟨"c", "k", "sec", "", "", false, false, none⟩
        ⟨fun _ => some ⟨5, false⟩, fun _ => none⟩
        (some ⟨200, Body.value (Json.obj [("public_id", Json.str "x")])⟩)
        "/root" "/a/b.png" (some [1, 2]) false "0").result = ("x", none) :=
  ⟨by decide, by decide, by decide, by decide⟩

/-- C9 amended: with a non-nil data stream the content is read from the
stream and the path is used for naming, but the outcome still depends on the
filesystem through the zero-byte stat check; whenever neither filesystem
reports an existing zero-size file at the path, two runs differing only in
the filesystem state at the path coincide completely. -/
theorem upload_stream_fs_independent_unless_zero_byte (s : Service) (net : Option HttpResp)
    (cwd fullPath ts : String) (bytes : List Nat) (rnd : Bool) (fs1 fs2 : Fs)
    (h1 : ∀ fi, fs1.stat fullPath = some fi → fi.size ≠ 0)
    (h2 : ∀ fi, fs2.stat fullPath = some fi → fi.size ≠ 0) :
    uploadFileM s fs1 net cwd fullPath (some bytes) rnd ts
      = uploadFileM s fs2 net cwd fullPath (some bytes) rnd ts := by
  unfold uploadFileM
  cases hs1 : fs1.stat fullPath with
  | none =>
    cases hs2 : fs2.stat fullPath with
    | none => rfl
    | some fi2 =>
      show uploadFileBody s fs1 net cwd fullPath (some bytes) rnd ts
        = if fi2.size = 0 then ⟨(fullPath, none), [], []⟩
          else uploadFileBody s fs2 net cwd fullPath (some bytes) rnd ts
      rw [if_neg (h2 fi2 hs2)]
      rfl
  | some fi1 =>
    cases hs2 : fs2.stat fullPath with
    | none =>
      show (if fi1.size = 0 then ⟨(fullPath, none), [], []⟩
          else uploadFileBody s fs1 net cwd fullPath (some bytes) rnd ts)
        = uploadFileBody s fs2 net cwd fullPath (some bytes) rnd ts
      rw [if_neg (h1 fi1 hs1)]
      rfl
    | some fi2 =>
      show (if fi1.size = 0 then ⟨(fullPath, none), [], []⟩
          else uploadFileBody s fs1 net cwd fullPath (some bytes) rnd ts)
        = if fi2.size = 0 then ⟨(fullPath, none), [], []⟩
          else uploadFileBody s fs2 net cwd fullPath (some bytes) rnd ts
      rw [if_neg (h1 fi1 hs1), if_neg (h2 fi2 hs2)]
      rfl

theorem upload_stream_fs_independent_unless_zero_byte_witness :
    (∀ fi, (⟨fun _ => none, fun _ => none⟩ : Fs).stat "/p" = some fi → fi.size ≠ 0)
    ∧ (∀ fi, (⟨fun _ => some ⟨3, false⟩, fun _ => none⟩ : Fs).stat "/p" = some fi → fi.size ≠ 0)
    ∧ uploadFileM ⟨"c", "k", "sec", "", "", false, false, none⟩ ⟨fun _ => none, fun _ => none⟩
        none "/root" "/p" (some [7]) false "0"
      = uploadFileM ⟨"c", "k", "sec", "", "", false, false, none⟩
        ⟨fun _ => some ⟨3, false⟩, fun _ => none⟩ none "/root" "/p" (some [7]) false "0" := by
  refine ⟨?_, ?_, ?_⟩
  · intro fi h
    cases h
  · intro fi h
    cases h
    decide
  · refine upload_stream_fs_independent_unless_zero_byte _ none "/root" "/p" "0" [7] false _ _ ?_ ?_
    · intro fi h
      cases h
    · intro fi h
      cases h
      decide

/-! ## Claim C10 -/

/-- C10: `KeepFiles` with a blank (empty or whitespace-only) pattern returns
success leaving the stored keep-pattern unchanged; a pattern the regexp
engine rejects returns that error with the service unchanged; only a
successful compile of a non-blank pattern stores the new matcher. -/
theorem keepFiles_blank_noop_and_atomic_on_error (compile : String → Option (String → Bool))
    (s : Service) (pattern : String) :
    ((trimSpace pattern).length = 0 → keepFilesM compile s pattern = (s, none))
    ∧ ((trimSpace pattern).length ≠ 0 → compile pattern = none →
        keepFilesM compile s pattern = (s, some Err.regexError))
    ∧ (∀ re, (trimSpace pattern).length ≠ 0 → compile pattern = some re →
        keepFilesM compile s pattern = ({ s with keepFilesPattern := some re }, none)) := by
  refine ⟨?_, ?_, ?_⟩
  · intro h0
    unfold keepFilesM
    rw [if_pos h0]
  · intro h0 hc
    unfold keepFilesM
    rw [if_neg h0, hc]
  · intro re h0 hc
    unfold keepFilesM
    rw [if_neg h0, hc]

theorem keepFiles_blank_noop_and_atomic_on_error_witness :
    ((trimSpace "a").length ≠ 0)
    ∧ ((fun _ : String => (none : Option (String → Bool))) "a" = none)
    ∧ keepFilesM (fun _ => none) ⟨"c", "k", "sec", "", "", false, false, none⟩ "a"
      = (⟨"c", "k", "sec", "", "", false, false, none⟩, some Err.regexError) :=
  ⟨by decide, rfl,
    (keepFiles_blank_noop_and_atomic_on_error (fun _ => none) _ "a").2.1 (by decide) rfl⟩

end Cloudinary
